import Mathlib

/-!
Verification of the pyECG core data model (`Time` / `Signal` / `ECGRecord`).
The repository ships only the package `__init__.py` and the test suite under
`src/`; the module `pyecg/ecg.py` that defines the triad is absent, so every
definition below is modelled from the specification (spec.md sections 3, 4
and 7), faithful to its words, and checked against the shipped tests.
-/

set_option autoImplicit false

namespace PyECG

/-- Modelled from the spec: the error taxonomy of section 7 of spec.md
(the module `pyecg/ecg.py` is missing from `src/`).  A type-contract
violation corresponds to a Python `TypeError`, a value-contract violation
to a Python `ValueError`. -/
inductive PyError where
  | typeError
  | valueError
deriving DecidableEq

/-- Modelled from the spec: `Time` (spec.md section 3 and 4.1), an ordered
sequence of numeric timestamps; `fs` records the sampling frequency when the
axis was built by the frequency factory, since `duration` is defined as
`(count-1)/fs` only for frequency-constructed axes. -/
structure Time where
  values : List ℚ
  fs : Option ℚ
deriving DecidableEq

/-- Modelled from the spec: `Time(values)` wrapping a raw one-dimensional
array-like (spec.md section 4.1). -/
def Time.ofValues (vs : List ℚ) : Time :=
  ⟨vs, none⟩

/-- Modelled from the spec: `Time.from_fs_samples(fs, n_samples)` builds a
`Time` of `n_samples` samples taken at sampling frequency `fs`
(spec.md section 4.1). -/
def Time.from_fs_samples (fs : ℚ) (n_samples : Nat) : Time :=
  ⟨(List.range n_samples).map (fun i : Nat => (i : ℚ) / fs), some fs⟩

/-- Modelled from the spec: `Signal` (spec.md section 3 and 4.2), a named
one-dimensional sequence of numeric samples. -/
structure Signal where
  name : String
  samples : List ℚ
deriving DecidableEq

/-- Modelled from the spec: `ECGRecord` (spec.md section 3 and 4.3), a name,
one `Time` instance, and an ordered collection of `Signal`s. -/
structure ECGRecord where
  name : String
  time : Time
  signals : List Signal
deriving DecidableEq

/-- Modelled from the spec: the dynamically typed argument values that the
Python entry points receive (spec.md section 9, dynamic typing note): a
`Time` instance, a `Signal` instance, a plain numeric list, or a numpy
array. -/
inductive PyObj where
  | timeObj : Time → PyObj
  | signalObj : Signal → PyObj
  | pyList : List ℚ → PyObj
  | npArr : List ℚ → PyObj
deriving DecidableEq

/-- Modelled from the spec: a numpy array of rank 1 to 4, as used by
`from_np_array` (spec.md section 4.3 and 8: the shape checks distinguish
only the rank; the tests exercise rank 1, 2 and 3 inputs). -/
inductive NpArray where
  | vec : List ℚ → NpArray
  | mat : List (List ℚ) → NpArray
  | cube : List (List (List ℚ)) → NpArray
  | hyper : List (List (List (List ℚ))) → NpArray
deriving DecidableEq

/-- Modelled from the spec: the number of dimensions of a numpy array. -/
def NpArray.ndim : NpArray → Nat
  | .vec _ => 1
  | .mat _ => 2
  | .cube _ => 3
  | .hyper _ => 4

/-- Modelled from the spec: a slicing key, an integer index or a range
`a:b` (spec.md section 4.3, `__getitem__`). -/
inductive SliceKey where
  | idx : Nat → SliceKey
  | rng : Nat → Nat → SliceKey
deriving DecidableEq

/-- Modelled from the spec: Python list/array slicing with a `SliceKey`
(array-like indexing semantics, spec.md section 4.1): a range `a:b` keeps
the elements from position `a` up to but excluding position `b`; an integer
index keeps the single element at that position. -/
def sliceList (l : List ℚ) : SliceKey → List ℚ
  | .idx i => (l.drop i).take 1
  | .rng a b => (l.drop a).take (b - a)

/-- Modelled from the spec: slicing a `Time` returns the corresponding
sub-sequence wrapped as the same semantic type, a new independent copy
(spec.md section 4.1). -/
def Time.getitem (t : Time) (k : SliceKey) : Time :=
  ⟨sliceList t.values k, t.fs⟩

/-- Modelled from the spec: slicing a `Signal` operates on the sample
sequence and preserves the name (spec.md section 4.2). -/
def Signal.getitem (s : Signal) (k : SliceKey) : Signal :=
  ⟨s.name, sliceList s.samples k⟩

/-- Modelled from the spec: `ECGRecord(name, time, subject_info=None)`
(spec.md section 4.3): `time` must be a `Time` instance, `TypeError`
otherwise; initializes an empty ordered collection of signals. -/
def ECGRecord.create (name : String) (time : PyObj) : Except PyError ECGRecord :=
  match time with
  | .timeObj t => .ok ⟨name, t, []⟩
  | _ => .error .typeError

/-- Modelled from the spec: `add_signal(signal)` (spec.md section 4.3):
`TypeError` for a non-`Signal` argument, `ValueError` when the signal
length differs from the time length, otherwise the signal is appended to
the ordered collection.  The result pairs the record after the call with
the error raised, if any; on failure the record is returned unchanged. -/
def ECGRecord.add_signal (r : ECGRecord) (x : PyObj) : ECGRecord × Option PyError :=
  match x with
  | .signalObj s =>
    if s.samples.length = r.time.values.length then
      ({ r with signals := r.signals ++ [s] }, none)
    else
      (r, some .valueError)
  | _ => (r, some .typeError)

/-- Modelled from the spec: attaching a list of signals one at a time via
the `add_signal` rule, stopping at the first failure (spec.md section 4.3,
`from_np_array` attaches each row via the same length-consistency rule as
`add_signal`). -/
def ECGRecord.attachAll : ECGRecord → List Signal → Except PyError ECGRecord
  | r, [] => .ok r
  | r, s :: rest =>
    match r.add_signal (.signalObj s) with
    | (r2, none) => ECGRecord.attachAll r2 rest
    | (_, some e) => .error e

/-- Modelled from the spec: `from_np_array(name, time, signal_matrix,
lead_names)` (spec.md section 4.3): `time` is wrapped into a `Time`;
`ValueError` if `signal_matrix` is not exactly 2-dimensional; `ValueError`
if `lead_names` does not have one name per row; otherwise one `Signal` per
row is built and attached via the `add_signal` rule. -/
def ECGRecord.from_np_array (name : String) (time : List ℚ) (signal_matrix : NpArray)
    (lead_names : List String) : Except PyError ECGRecord :=
  match signal_matrix with
  | .mat rows =>
    if lead_names.length = rows.length then
      ECGRecord.attachAll ⟨name, Time.ofValues time, []⟩
        ((lead_names.zip rows).map (fun p => ⟨p.1, p.2⟩))
    else
      .error .valueError
  | _ => .error .valueError

/-- Modelled from the spec: `get_lead(name)` (spec.md section 4.3): linear
lookup among attached signals by name, returning the matching `Signal` or
the absent sentinel `none` when there is no match. -/
def ECGRecord.get_lead (r : ECGRecord) (lead_name : String) : Option Signal :=
  r.signals.find? (fun s => s.name == lead_name)

/-- Modelled from the spec: `__len__` returns `len(self.time)`
(spec.md section 4.3). -/
def ECGRecord.len (r : ECGRecord) : Nat :=
  r.time.values.length

/-- Modelled from the spec: the `duration` property, `(len(self) - 1) / fs`
when the time axis was built from a sampling frequency; unspecified
otherwise (spec.md section 4.3). -/
def ECGRecord.duration (r : ECGRecord) : Option ℚ :=
  r.time.fs.map (fun f => ((r.len : ℚ) - 1) / f)

/-- Modelled from the spec: the `p_signal` property, a dense 2-D view of
shape `(num_leads, num_samples)` with rows in lead-insertion order
(spec.md section 4.3). -/
def ECGRecord.p_signal (r : ECGRecord) : List (List ℚ) :=
  r.signals.map (fun s => s.samples)

/-- Modelled from the spec: `__getitem__(key)` (spec.md section 4.3):
returns a new `ECGRecord` with the same name and lead set, whose time and
every signal have been sliced with the identical key. -/
def ECGRecord.getitem (r : ECGRecord) (k : SliceKey) : ECGRecord :=
  ⟨r.name, r.time.getitem k, r.signals.map (fun s => s.getitem k)⟩

/-- A single quote character, used by the Python list rendering below. -/
def sq : String :=
  String.mk [Char.ofNat 39]

/-- Modelled from the spec: the Python rendering of a list of strings, as
it appears inside `__repr__` output: the names separated by a comma and a
space, each surrounded by single quotes, the whole in square brackets. -/
def pyStrList (names : List String) : String :=
  "[" ++ String.intercalate ", " (names.map (fun n => sq ++ n ++ sq)) ++ "]"

/-- Modelled from the spec: `__repr__`, a summary of the form
`Record <name>: [<lead names in order>]` (spec.md section 4.3). -/
def ECGRecord.repr (r : ECGRecord) : String :=
  "Record " ++ r.name ++ ": " ++ pyStrList (r.signals.map (fun s => s.name))

/-- The internal-consistency invariant of a record (spec.md section 3):
every attached signal has exactly one sample per entry of the time axis. -/
def ECGRecord.consistent (r : ECGRecord) : Prop :=
  ∀ s ∈ r.signals, s.samples.length = r.time.values.length

instance (r : ECGRecord) : Decidable r.consistent :=
  List.decidableBAll _ r.signals

/-! ### A store model for the ownership / frame claims

Spec.md sections 3, 4.3 and 5 state that slicing deep-copies the underlying
numeric storage: a slice never shares storage with the source record or with
another slice, so mutating one never affects the others.  To make the
aliasing observable we model numeric buffers in an explicit store: a record
holds pointers into the store, and slicing allocates fresh buffers at the
end of the store. -/

/-- Modelled from the spec: the heap of numeric buffers; a pointer is an
index into `arrays`. -/
structure Store where
  arrays : List (List ℚ)
deriving DecidableEq

/-- Read the buffer a pointer designates. -/
def Store.read (σ : Store) (p : Nat) : List ℚ :=
  σ.arrays.getD p []

/-- Overwrite the buffer a pointer designates (in-place mutation of the
underlying storage). -/
def Store.write (σ : Store) (p : Nat) (a : List ℚ) : Store :=
  ⟨σ.arrays.set p a⟩

/-- Number of allocated buffers. -/
def Store.size (σ : Store) : Nat :=
  σ.arrays.length

/-- Modelled from the spec: an `ECGRecord` whose time axis and signal
sample buffers live in a `Store`: a name, a pointer to the time buffer, and
one (lead name, pointer) pair per attached signal. -/
structure RecordRef where
  name : String
  timePtr : Nat
  sigPtrs : List (String × Nat)
deriving DecidableEq

/-- All pointers of a record, time axis first. -/
def RecordRef.ptrs (r : RecordRef) : List Nat :=
  r.timePtr :: r.sigPtrs.map (fun p => p.2)

/-- A record is valid in a store when all its pointers are allocated. -/
def RecordRef.validIn (r : RecordRef) (σ : Store) : Prop :=
  ∀ p ∈ r.ptrs, p < σ.size

/-- Modelled from the spec: `__getitem__` in the store model (spec.md
sections 4.3 and 5): the time buffer and every signal buffer are sliced
with the identical key and the results are copied into freshly allocated
buffers at the end of the store; the new record points only at the fresh
buffers. -/
def RecordRef.getitem (σ : Store) (r : RecordRef) (k : SliceKey) : Store × RecordRef :=
  let n := σ.size
  let newTime := sliceList (σ.read r.timePtr) k
  let newSigs := r.sigPtrs.map (fun p => sliceList (σ.read p.2) k)
  (⟨σ.arrays ++ newTime :: newSigs⟩,
   ⟨r.name, n,
    (List.range r.sigPtrs.length).map
      (fun i => ((r.sigPtrs.getD i ("", 0)).1, n + 1 + i))⟩)

/-! ### Helper lemmas -/

theorem sliceList_length_eq {l1 l2 : List ℚ} (h : l1.length = l2.length)
    (k : SliceKey) : (sliceList l1 k).length = (sliceList l2 k).length := by
  cases k <;> simp [sliceList, h]

theorem add_signal_ok {r : ECGRecord} {s : Signal}
    (h : s.samples.length = r.time.values.length) :
    r.add_signal (.signalObj s) = ({ r with signals := r.signals ++ [s] }, none) := by
  simp [ECGRecord.add_signal, h]

theorem attachAll_ok {ss : List Signal} :
    ∀ {r r' : ECGRecord}, ECGRecord.attachAll r ss = .ok r' →
      (∀ s ∈ ss, s.samples.length = r.time.values.length) ∧
      r'.name = r.name ∧ r'.time = r.time ∧ r'.signals = r.signals ++ ss := by
  induction ss with
  | nil =>
    intro r r' h
    simp only [ECGRecord.attachAll] at h
    cases h
    simp
  | cons s rest ih =>
    intro r r' h
    by_cases hl : s.samples.length = r.time.values.length
    · rw [ECGRecord.attachAll, add_signal_ok hl] at h
      obtain ⟨h1, h2, h3, h4⟩ := ih h
      refine ⟨?_, h2, h3, ?_⟩
      · intro t ht
        rcases List.mem_cons.mp ht with rfl | ht
        · exact hl
        · exact h1 t ht
      · rw [h4]
        simp
    · rw [ECGRecord.attachAll] at h
      have : r.add_signal (.signalObj s) = (r, some .valueError) := by
        simp [ECGRecord.add_signal, hl]
      rw [this] at h
      cases h

theorem from_np_ok {name : String} {tv : List ℚ} {rows : List (List ℚ)}
    {ln : List String} {r : ECGRecord}
    (h : ECGRecord.from_np_array name tv (.mat rows) ln = .ok r) :
    ln.length = rows.length ∧
    r.name = name ∧ r.time = Time.ofValues tv ∧
    r.signals = (ln.zip rows).map (fun p => ⟨p.1, p.2⟩) ∧
    ∀ row ∈ rows, row.length = tv.length := by
  rw [ECGRecord.from_np_array] at h
  by_cases hlen : ln.length = rows.length
  · rw [if_pos hlen] at h
    obtain ⟨h1, h2, h3, h4⟩ := attachAll_ok h
    refine ⟨hlen, h2, h3, by simpa using h4, ?_⟩
    intro row hrow
    have hrow2 : row ∈ (ln.zip rows).map Prod.snd := by
      rw [List.map_snd_zip ln rows (le_of_eq hlen.symm)]
      exact hrow
    obtain ⟨p, hp, hps⟩ := List.mem_map.mp hrow2
    have : (⟨p.1, p.2⟩ : Signal) ∈ (ln.zip rows).map
        (fun p => (⟨p.1, p.2⟩ : Signal)) :=
      List.mem_map.mpr ⟨p, hp, rfl⟩
    have := h1 _ this
    simpa [Time.ofValues, hps] using this
  · rw [if_neg hlen] at h
    cases h

theorem zip_getElem? {ln : List String} {rows : List (List ℚ)} {i : Nat}
    (h1 : i < ln.length) (h2 : i < rows.length) :
    (ln.zip rows)[i]? = some (ln.getD i "", rows.getD i []) :=
  List.getElem?_zip_eq_some.mpr
    ⟨by simp [List.getD_eq_getElem?_getD, List.getElem?_eq_getElem h1],
     by simp [List.getD_eq_getElem?_getD, List.getElem?_eq_getElem h2]⟩

theorem zip_map_getElem? {ln : List String} {rows : List (List ℚ)} {i : Nat}
    (h1 : i < ln.length) (h2 : i < rows.length) :
    ((ln.zip rows).map (fun p => (⟨p.1, p.2⟩ : Signal)))[i]?
      = some ⟨ln.getD i "", rows.getD i []⟩ := by
  rw [List.getElem?_map, zip_getElem? h1 h2]
  rfl

theorem find?_mk_zip : ∀ (ln : List String) (rows : List (List ℚ)) (i : Nat),
    ln.Nodup → i < ln.length → i < rows.length →
    ((ln.zip rows).map (fun p => (⟨p.1, p.2⟩ : Signal))).find?
        (fun s => s.name == ln.getD i "")
      = some ⟨ln.getD i "", rows.getD i []⟩ := by
  intro ln
  induction ln with
  | nil =>
    intro rows i _ hi
    simp at hi
  | cons n ln ih =>
    intro rows i hnd hi hr
    cases rows with
    | nil => simp at hr
    | cons row rows =>
      cases i with
      | zero =>
        simp [List.find?]
      | succ i =>
        have hn : n ∉ ln := (List.nodup_cons.mp hnd).1
        have hi2 : i < ln.length := Nat.lt_of_succ_lt_succ hi
        have hr2 : i < rows.length := Nat.lt_of_succ_lt_succ hr
        have hmem : ln.getD i "" ∈ ln := by
          have := List.getD_eq_getElem ln "" hi2
          rw [this]
          exact List.getElem_mem hi2
        have hne : n ≠ ln.getD i "" := fun he => hn (he ▸ hmem)
        rw [List.zip_cons_cons, List.map_cons, List.getD_cons_succ,
          List.getD_cons_succ,
          List.find?_cons_of_neg _
            (by simpa [List.getD_eq_getElem?_getD] using hne)]
        exact ih rows i (List.nodup_cons.mp hnd).2 hi2 hr2

theorem find?_mk_zip_none {ln : List String} {rows : List (List ℚ)} {nm : String}
    (h : nm ∉ ln) :
    ((ln.zip rows).map (fun p => (⟨p.1, p.2⟩ : Signal))).find?
        (fun s => s.name == nm) = none := by
  rw [List.find?_eq_none]
  intro s hs
  obtain ⟨p, hp, rfl⟩ := List.mem_map.mp hs
  have hmem := (List.of_mem_zip hp).1
  simp only [beq_iff_eq, Bool.not_eq_true, ne_eq]
  intro he
  exact h (he ▸ hmem)

theorem p_signal_of_zip {ln : List String} {rows : List (List ℚ)}
    (h : rows.length ≤ ln.length) :
    ((ln.zip rows).map (fun p => (⟨p.1, p.2⟩ : Signal))).map
        (fun s => s.samples) = rows := by
  rw [List.map_map]
  have hc : ((fun s : Signal => s.samples) ∘
      (fun p : String × List ℚ => (⟨p.1, p.2⟩ : Signal))) = Prod.snd := by
    funext p
    rfl
  rw [hc, List.map_snd_zip _ _ h]

theorem names_of_zip {ln : List String} {rows : List (List ℚ)}
    (h : ln.length ≤ rows.length) :
    ((ln.zip rows).map (fun p => (⟨p.1, p.2⟩ : Signal))).map
        (fun s => s.name) = ln := by
  rw [List.map_map]
  have hc : ((fun s : Signal => s.name) ∘
      (fun p : String × List ℚ => (⟨p.1, p.2⟩ : Signal))) = Prod.fst := by
    funext p
    rfl
  rw [hc, List.map_fst_zip _ _ h]

theorem store_read_append {σ : Store} {rest : List (List ℚ)} {p : Nat}
    (hp : p < σ.size) :
    (Store.mk (σ.arrays ++ rest)).read p = σ.read p := by
  have hp2 : p < σ.arrays.length := hp
  simp only [Store.read]
  simp [List.getD, List.getElem?_append, hp2]

theorem store_write_read_ne {σ : Store} {p q : Nat} {a : List ℚ} (h : p ≠ q) :
    (σ.write q a).read p = σ.read p := by
  simp only [Store.write, Store.read]
  simp [List.getD, List.getElem?_set_ne (Ne.symm h)]

theorem getitem_size {σ : Store} {r : RecordRef} {k : SliceKey} :
    (RecordRef.getitem σ r k).1.size = σ.size + 1 + r.sigPtrs.length := by
  simp [RecordRef.getitem, Store.size]
  omega

theorem getitem_preserves_read {σ : Store} {r : RecordRef} {k : SliceKey}
    {p : Nat} (hp : p < σ.size) :
    (RecordRef.getitem σ r k).1.read p = σ.read p := by
  simp only [RecordRef.getitem]
  exact store_read_append hp

theorem getitem_ptr_spec {σ : Store} {r : RecordRef} {k : SliceKey} {q : Nat}
    (hq : q ∈ (RecordRef.getitem σ r k).2.ptrs) :
    q = σ.size ∨ ∃ i, i < r.sigPtrs.length ∧ q = σ.size + 1 + i := by
  simp only [RecordRef.getitem, RecordRef.ptrs, List.map_map, List.mem_cons,
    List.mem_map, List.mem_range, Function.comp] at hq
  rcases hq with rfl | ⟨i, hi, rfl⟩
  · exact Or.inl rfl
  · exact Or.inr ⟨i, hi, rfl⟩

theorem getitem_fresh {σ : Store} {r : RecordRef} {k : SliceKey} {q : Nat}
    (hq : q ∈ (RecordRef.getitem σ r k).2.ptrs) : σ.size ≤ q := by
  rcases getitem_ptr_spec hq with rfl | ⟨i, _, rfl⟩ <;> omega

theorem getitem_ptrs_lt {σ : Store} {r : RecordRef} {k : SliceKey} {q : Nat}
    (hq : q ∈ (RecordRef.getitem σ r k).2.ptrs) :
    q < (RecordRef.getitem σ r k).1.size := by
  rw [getitem_size]
  rcases getitem_ptr_spec hq with rfl | ⟨i, hi, rfl⟩ <;> omega

theorem getitem_time_content {σ : Store} {r : RecordRef} {k : SliceKey} :
    (RecordRef.getitem σ r k).1.read (RecordRef.getitem σ r k).2.timePtr
      = sliceList (σ.read r.timePtr) k := by
  simp only [RecordRef.getitem, Store.read, Store.size]
  rw [List.getD_eq_getElem?_getD, List.getElem?_append_right (le_refl _)]
  simp

theorem getitem_sig_content {σ : Store} {r : RecordRef} {k : SliceKey} {i : Nat}
    (hi : i < r.sigPtrs.length) :
    (RecordRef.getitem σ r k).1.read (σ.size + 1 + i)
      = sliceList (σ.read (r.sigPtrs.getD i ("", 0)).2) k := by
  simp only [RecordRef.getitem, Store.read, Store.size]
  rw [List.getD_eq_getElem?_getD,
    List.getElem?_append_right (by omega : σ.arrays.length ≤ σ.arrays.length + 1 + i)]
  have hoff : σ.arrays.length + 1 + i - σ.arrays.length = i + 1 := by omega
  rw [hoff, List.getElem?_cons_succ, List.getElem?_map,
    List.getElem?_eq_getElem (l := r.sigPtrs) hi]
  simp [List.getD_eq_getElem?_getD, List.getElem?_eq_getElem (l := r.sigPtrs) hi]

/-! ### Shared concrete fixtures (the 3×6 example of the test suite) -/

/-- The time axis `[0..5]` used by the round-trip tests. -/
def tv6 : List ℚ := [0, 1, 2, 3, 4, 5]

/-- The 3×6 signal matrix used by the round-trip tests. -/
def mat6 : List (List ℚ) :=
  [[1, 2, 3, 4, 5, 6], [5, 6, 7, 8, 9, 10], [10, 20, 30, 40, 50, 60]]

/-- The lead names used by the round-trip tests. -/
def leads3 : List String := ["I", "II", "III"]

/-- The record `from_np_array` builds from the fixtures above. -/
def rec6 : ECGRecord :=
  ⟨"100", ⟨tv6, none⟩,
   [⟨"I", [1, 2, 3, 4, 5, 6]⟩, ⟨"II", [5, 6, 7, 8, 9, 10]⟩,
    ⟨"III", [10, 20, 30, 40, 50, 60]⟩]⟩

theorem rec6_built :
    ECGRecord.from_np_array "100" tv6 (.mat mat6) leads3 = .ok rec6 := by
  rfl

/-! ### Claims -/

/-- C1: a record built through the constructor plus `add_signal` calls, or
through `from_np_array`, is internally consistent (every attached signal has
as many samples as the time axis has entries), the invariant is preserved by
`add_signal` (on success and on failure) and by slicing, and the observers
`get_lead` and `p_signal` only ever expose signals of the record length. -/
theorem C1_invariant_lifetime :
    (∀ (name : String) (x : PyObj) (r : ECGRecord),
      ECGRecord.create name x = .ok r → r.consistent) ∧
    (∀ (r : ECGRecord) (x : PyObj) (r' : ECGRecord) (e : Option PyError),
      r.consistent → r.add_signal x = (r', e) → r'.consistent) ∧
    (∀ (name : String) (tv : List ℚ) (a : NpArray) (ln : List String)
        (r : ECGRecord),
      ECGRecord.from_np_array name tv a ln = .ok r → r.consistent) ∧
    (∀ (r : ECGRecord) (k : SliceKey), r.consistent → (r.getitem k).consistent) ∧
    (∀ (r : ECGRecord) (nm : String) (s : Signal),
      r.consistent → r.get_lead nm = some s → s.samples.length = r.len) ∧
    (∀ (r : ECGRecord) (row : List ℚ),
      r.consistent → row ∈ r.p_signal → row.length = r.len) := by
  refine ⟨?_, ?_, ?_, ?_, ?_, ?_⟩
  · intro name x r h
    cases x <;> simp [ECGRecord.create] at h
    subst h
    intro s hs
    simp at hs
  · intro r x r' e hc h
    cases x <;> simp [ECGRecord.add_signal] at h
    case signalObj s =>
      by_cases hl : s.samples.length = r.time.values.length
      · rw [if_pos hl] at h
        obtain ⟨rfl, rfl⟩ := Prod.mk.injEq .. ▸ h
        intro t ht
        rcases List.mem_append.mp ht with ht | ht
        · exact hc t ht
        · simp at ht
          subst ht
          exact hl
      · rw [if_neg hl] at h
        obtain ⟨rfl, rfl⟩ := Prod.mk.injEq .. ▸ h
        exact hc
    all_goals
      obtain ⟨rfl, rfl⟩ := Prod.mk.injEq .. ▸ h
      exact hc
  · intro name tv a ln r h
    cases a <;> try (simp [ECGRecord.from_np_array] at h)
    case mat rows =>
      obtain ⟨hlen, _, htime, hsig, hrows⟩ := from_np_ok h
      intro s hs
      rw [hsig] at hs
      obtain ⟨p, hp, rfl⟩ := List.mem_map.mp hs
      have hr := hrows _ (List.of_mem_zip hp).2
      rw [htime]
      simpa [Time.ofValues] using hr
  · intro r k hc s hs
    simp only [ECGRecord.getitem, Time.getitem] at hs ⊢
    obtain ⟨t, ht, rfl⟩ := List.mem_map.mp hs
    exact sliceList_length_eq (hc t ht) k
  · intro r nm s hc h
    exact hc s (List.mem_of_find?_eq_some h)
  · intro r row hc h
    obtain ⟨s, hs, rfl⟩ := List.mem_map.mp h
    exact hc s hs

/-- Witness for C1 at the concrete 3×6 fixture and a concrete
`add_signal` call. -/
theorem C1_invariant_lifetime_witness :
    rec6.consistent ∧
    (ECGRecord.add_signal ⟨"r", ⟨[0, 1], none⟩, []⟩
        (.signalObj ⟨"MLII", [7, 8]⟩)
      = (⟨"r", ⟨[0, 1], none⟩, [⟨"MLII", [7, 8]⟩]⟩, none) →
      (⟨"r", ⟨[0, 1], none⟩, [⟨"MLII", [7, 8]⟩]⟩ : ECGRecord).consistent) :=
  ⟨C1_invariant_lifetime.2.2.1 "100" tv6 (.mat mat6) leads3 rec6 rec6_built,
   fun h => C1_invariant_lifetime.2.1 _ _ _ _ (by decide) h⟩

/-- C2: `Time.from_fs_samples fs n` has length `n`; a record built on it by
the constructor has `len = n` and `duration = (n - 1) / fs`. -/
theorem C2_fs_samples_duration (name : String) (fs : ℚ) (n : Nat)
    (r : ECGRecord) (_hfs : 0 < fs) (_hn : 1 ≤ n)
    (h : ECGRecord.create name (.timeObj (Time.from_fs_samples fs n)) = .ok r) :
    (Time.from_fs_samples fs n).values.length = n ∧
    r.len = n ∧
    r.duration = some (((n : ℚ) - 1) / fs) := by
  have hlen : (Time.from_fs_samples fs n).values.length = n := by
    rw [Time.from_fs_samples, List.length_map, List.length_range]
  simp only [ECGRecord.create, Except.ok.injEq] at h
  subst h
  refine ⟨hlen, hlen, ?_⟩
  simp only [ECGRecord.duration, ECGRecord.len]
  rw [hlen]
  rfl

/-- Witness for C2 at `fs = 360`, `n = 10` (the `test_duration` /
`test_length` parameters). -/
theorem C2_fs_samples_duration_witness :
    (Time.from_fs_samples 360 10).values.length = 10 ∧
    (⟨"record_100", Time.from_fs_samples 360 10, []⟩ : ECGRecord).len = 10 ∧
    (⟨"record_100", Time.from_fs_samples 360 10, []⟩ : ECGRecord).duration
      = some (((10 : ℚ) - 1) / 360) :=
  C2_fs_samples_duration "record_100" 360 10 _ (by norm_num) (by norm_num) rfl

theorem sliceList_idx {l : List ℚ} {i : Nat} (hi : i < l.length) :
    sliceList l (.idx i) = [l.getD i 0] := by
  simp only [sliceList]
  rw [List.drop_eq_getElem_cons hi, List.take_succ_cons, List.take_zero,
    List.getD_eq_getElem?_getD, List.getElem?_eq_getElem hi]
  rfl

instance (r : RecordRef) (σ : Store) : Decidable (r.validIn σ) :=
  List.decidableBAll _ r.ptrs

/-- C3: slicing with a range returns a new record with the same name and
the same lead names in the same order, whose time is the slice of the
original time, whose i-th signal is the i-th original signal sliced with
the identical key, and whose storage (in the store model) is freshly
allocated, never shared with the source. -/
theorem C3_slice_range (r : ECGRecord) (a b : Nat) :
    (r.getitem (.rng a b)).name = r.name ∧
    (r.getitem (.rng a b)).signals.map (fun s => s.name)
      = r.signals.map (fun s => s.name) ∧
    (r.getitem (.rng a b)).time.values = sliceList r.time.values (.rng a b) ∧
    (∀ i : Nat, (r.getitem (.rng a b)).signals[i]?
      = (r.signals[i]?).map (fun s => s.getitem (.rng a b))) ∧
    (∀ (σ : Store) (rr : RecordRef) (q : Nat),
      q ∈ (RecordRef.getitem σ rr (.rng a b)).2.ptrs → σ.size ≤ q) := by
  refine ⟨rfl, ?_, rfl, ?_, ?_⟩
  · simp [ECGRecord.getitem, Signal.getitem, List.map_map]
  · intro i
    simp [ECGRecord.getitem, List.getElem?_map]
  · intro σ rr q hq
    exact getitem_fresh hq

/-- Witness for C3: in the store model, the single pointer of a slice of a
one-buffer record is a fresh pointer. -/
theorem C3_slice_range_witness : Store.size ⟨[tv6]⟩ ≤ 1 :=
  (C3_slice_range rec6 0 1).2.2.2.2 ⟨[tv6]⟩ ⟨"100", 0, []⟩ 1 (by decide)

theorem getitem_sigPtrs_getD {σ : Store} {r : RecordRef} {k : SliceKey}
    {i : Nat} (hi : i < r.sigPtrs.length) :
    (RecordRef.getitem σ r k).2.sigPtrs.getD i ("", 0)
      = ((r.sigPtrs.getD i ("", 0)).1, σ.size + 1 + i) := by
  simp only [RecordRef.getitem]
  rw [List.getD_eq_getElem?_getD, List.getElem?_map, List.getElem?_range hi]
  rfl

/-- C4: slicing never mutates the source record and shares no storage with
it: in the store model, every buffer of the source reads the same after the
slice, the slice points only at buffers outside the source's pointer set
(and inside the new store, so successively produced slices are pairwise
disjoint too), writing through any slice pointer leaves every source buffer
unchanged, and each fresh buffer holds exactly the slice of the
corresponding source buffer. -/
theorem C4_slice_frame (σ : Store) (r : RecordRef) (k : SliceKey)
    (hv : r.validIn σ) :
    (∀ p ∈ r.ptrs, (RecordRef.getitem σ r k).1.read p = σ.read p) ∧
    (∀ q ∈ (RecordRef.getitem σ r k).2.ptrs, ∀ p ∈ r.ptrs, q ≠ p) ∧
    (∀ q ∈ (RecordRef.getitem σ r k).2.ptrs,
      q < (RecordRef.getitem σ r k).1.size) ∧
    (∀ q ∈ (RecordRef.getitem σ r k).2.ptrs, ∀ a : List ℚ, ∀ p ∈ r.ptrs,
      ((RecordRef.getitem σ r k).1.write q a).read p = σ.read p) ∧
    ((RecordRef.getitem σ r k).1.read (RecordRef.getitem σ r k).2.timePtr
      = sliceList (σ.read r.timePtr) k) ∧
    (∀ i, i < r.sigPtrs.length →
      (RecordRef.getitem σ r k).1.read
          ((RecordRef.getitem σ r k).2.sigPtrs.getD i ("", 0)).2
        = sliceList (σ.read (r.sigPtrs.getD i ("", 0)).2) k) := by
  refine ⟨?_, ?_, ?_, ?_, ?_, ?_⟩
  · intro p hp
    exact getitem_preserves_read (hv p hp)
  · intro q hq p hp
    have h1 := getitem_fresh hq
    have h2 := hv p hp
    omega
  · intro q hq
    exact getitem_ptrs_lt hq
  · intro q hq a p hp
    have h1 := getitem_fresh hq
    have h2 := hv p hp
    rw [store_write_read_ne (by omega : p ≠ q)]
    exact getitem_preserves_read h2
  · exact getitem_time_content
  · intro i hi
    rw [getitem_sigPtrs_getD hi]
    exact getitem_sig_content hi

/-- Witness for C4 at a store holding the length-6 fixture: after a slice,
the source's time buffer reads unchanged. -/
theorem C4_slice_frame_witness :
    (RecordRef.getitem
        ⟨[tv6, [1, 2, 3, 4, 5, 6], [5, 6, 7, 8, 9, 10], [10, 20, 30, 40, 50, 60]]⟩
        ⟨"100", 0, [("I", 1), ("II", 2), ("III", 3)]⟩ (.rng 0 1)).1.read 0
      = Store.read ⟨[tv6, [1, 2, 3, 4, 5, 6], [5, 6, 7, 8, 9, 10],
          [10, 20, 30, 40, 50, 60]]⟩ 0 :=
  (C4_slice_frame _ _ (.rng 0 1) (by decide)).1 0 (by decide)

/-- C5 counterexample: `from_np_array` does not reject duplicate lead
names, and with `lead_names = ["I", "I"]` the record is built successfully
but `get_lead (lead_names.getD 1 "")` returns row 0, not row 1: the
round-trip property as universally stated fails. -/
theorem C5_duplicate_leads_cex :
    ECGRecord.from_np_array "100" [0, 1] (.mat [[1, 2], [3, 4]]) ["I", "I"]
      = .ok ⟨"100", ⟨[0, 1], none⟩, [⟨"I", [1, 2]⟩, ⟨"I", [3, 4]⟩]⟩ ∧
    ECGRecord.get_lead ⟨"100", ⟨[0, 1], none⟩, [⟨"I", [1, 2]⟩, ⟨"I", [3, 4]⟩]⟩
        (["I", "I"].getD 1 "") = some ⟨"I", [1, 2]⟩ ∧
    (⟨"I", [1, 2]⟩ : Signal) ≠ ⟨["I", "I"].getD 1 "",
      ([[1, 2], [3, 4]] : List (List ℚ)).getD 1 []⟩ :=
  ⟨rfl, rfl, by decide⟩

/-- C5 (amended with distinct lead names): for a record built by
`from_np_array` with pairwise distinct lead names, `get_lead` at the i-th
lead name returns exactly the signal carrying row i of the matrix,
`get_lead` at an absent name returns the sentinel `none`, and `p_signal`
equals the original matrix, of shape (number of leads, number of
samples). -/
theorem C5_roundtrip (name : String) (tv : List ℚ) (rows : List (List ℚ))
    (ln : List String) (r : ECGRecord)
    (hok : ECGRecord.from_np_array name tv (.mat rows) ln = .ok r)
    (hnd : ln.Nodup) :
    (∀ i, i < ln.length →
      r.get_lead (ln.getD i "") = some ⟨ln.getD i "", rows.getD i []⟩) ∧
    (∀ nm, nm ∉ ln → r.get_lead nm = none) ∧
    r.p_signal = rows ∧
    r.p_signal.length = ln.length ∧
    (∀ row ∈ r.p_signal, row.length = tv.length) := by
  obtain ⟨hlen, _, _, hsig, hrows⟩ := from_np_ok hok
  have hps : r.p_signal = rows := by
    rw [ECGRecord.p_signal, hsig]
    exact p_signal_of_zip (le_of_eq hlen.symm)
  refine ⟨?_, ?_, hps, ?_, ?_⟩
  · intro i hi
    rw [ECGRecord.get_lead, hsig]
    exact find?_mk_zip ln rows i hnd hi (hlen ▸ hi)
  · intro nm hnm
    rw [ECGRecord.get_lead, hsig]
    exact find?_mk_zip_none hnm
  · rw [hps, hlen]
  · intro row hrow
    exact hrows row (hps ▸ hrow)

/-- Witness for C5 at the 3×6 fixture of the test suite. -/
theorem C5_roundtrip_witness :
    rec6.get_lead "I" = some ⟨"I", [1, 2, 3, 4, 5, 6]⟩ ∧
    rec6.get_lead "IV" = none ∧
    rec6.p_signal = mat6 := by
  obtain ⟨h1, h2, h3, _⟩ :=
    C5_roundtrip "100" tv6 mat6 leads3 rec6 rec6_built (by decide)
  exact ⟨h1 0 (by decide), h2 "IV" (by decide), h3⟩

/-- C6: `add_signal` fails with a `TypeError` on every non-`Signal`
argument and with a `ValueError` on every `Signal` of the wrong length,
leaving the signal collection unchanged in both cases, and on success
appends the signal to the ordered collection. -/
theorem C6_add_signal_contract :
    (∀ (r : ECGRecord) (x : PyObj), (∀ s, x ≠ .signalObj s) →
      r.add_signal x = (r, some .typeError)) ∧
    (∀ (r : ECGRecord) (s : Signal),
      s.samples.length ≠ r.time.values.length →
      r.add_signal (.signalObj s) = (r, some .valueError)) ∧
    (∀ (r : ECGRecord) (s : Signal),
      s.samples.length = r.time.values.length →
      r.add_signal (.signalObj s)
        = ({ r with signals := r.signals ++ [s] }, none)) := by
  refine ⟨?_, ?_, ?_⟩
  · intro r x h
    cases x
    case signalObj s => exact absurd rfl (h s)
    all_goals rfl
  · intro r s h
    simp [ECGRecord.add_signal, h]
  · intro r s h
    exact add_signal_ok h

/-- Witness for C6: a numpy array argument raises `TypeError`; a 3-sample
signal against a 10-sample time axis raises `ValueError`; in both cases
the record comes back unchanged. -/
theorem C6_add_signal_contract_witness :
    ECGRecord.add_signal ⟨"record_100", Time.from_fs_samples 360 10, []⟩
        (.npArr [1, 2, 3])
      = (⟨"record_100", Time.from_fs_samples 360 10, []⟩, some .typeError) ∧
    ECGRecord.add_signal ⟨"record_100", Time.from_fs_samples 360 10, []⟩
        (.signalObj ⟨"MLII", [1, 2, 3]⟩)
      = (⟨"record_100", Time.from_fs_samples 360 10, []⟩, some .valueError) :=
  ⟨C6_add_signal_contract.1 _ _ (fun s h => nomatch h),
   C6_add_signal_contract.2.1 _ _ (by decide)⟩

/-- C7: `from_np_array` fails with a `ValueError` whenever the signal
matrix is not exactly 2-dimensional, and whenever the number of lead names
differs from the number of rows; no record is returned in either case. -/
theorem C7_from_np_array_shape :
    (∀ (name : String) (tv : List ℚ) (a : NpArray) (ln : List String),
      a.ndim ≠ 2 →
      ECGRecord.from_np_array name tv a ln = .error .valueError) ∧
    (∀ (name : String) (tv : List ℚ) (rows : List (List ℚ))
        (ln : List String),
      ln.length ≠ rows.length →
      ECGRecord.from_np_array name tv (.mat rows) ln = .error .valueError) := by
  constructor
  · intro name tv a ln h
    cases a
    case mat rows => exact absurd rfl h
    all_goals rfl
  · intro name tv rows ln h
    simp [ECGRecord.from_np_array, h]

/-- Witness for C7: a 1-D signal matrix is rejected, and a single lead
name against a 3-row matrix is rejected. -/
theorem C7_from_np_array_shape_witness :
    ECGRecord.from_np_array "record_100" [0, 1] (.vec [1, 2]) ["II"]
      = .error .valueError ∧
    ECGRecord.from_np_array "record_100" tv6 (.mat mat6) ["II"]
      = .error .valueError :=
  ⟨C7_from_np_array_shape.1 _ _ _ _ (by decide),
   C7_from_np_array_shape.2 _ _ _ _ (by decide)⟩

/-- C8: the `ECGRecord` constructor fails with a `TypeError` for every
`time` argument that is not a `Time` instance. -/
theorem C8_create_requires_time (name : String) (x : PyObj)
    (h : ∀ t, x ≠ .timeObj t) :
    ECGRecord.create name x = .error .typeError := by
  cases x
  case timeObj t => exact absurd rfl (h t)
  all_goals rfl

/-- Witness for C8: a plain list as the `time` argument raises
`TypeError`. -/
theorem C8_create_requires_time_witness :
    ECGRecord.create "record_100" (.pyList [1, 2, 3, 4]) = .error .typeError :=
  C8_create_requires_time _ _ (fun _t h => nomatch h)

/-- C9: `repr` has the form `Record <name>: [<lead names in order>]`, and
on the record built from the 3×6 fixture with name "100" and leads I, II,
III it is exactly the string the test expects (single-quoted names,
comma-and-space separated, in square brackets). -/
theorem C9_repr :
    (∀ r : ECGRecord, r.repr
      = "Record " ++ r.name ++ ": "
        ++ pyStrList (r.signals.map (fun s => s.name))) ∧
    (∀ r : ECGRecord,
      ECGRecord.from_np_array "100" tv6 (.mat mat6) leads3 = .ok r →
      r.repr = "Record 100: [" ++ sq ++ "I" ++ sq ++ ", " ++ sq ++ "II" ++ sq
        ++ ", " ++ sq ++ "III" ++ sq ++ "]") := by
  constructor
  · intro r
    rfl
  · intro r h
    have hr : rec6 = r := Except.ok.inj (rec6_built.symm.trans h)
    subst hr
    rfl

/-- Witness for C9 at the 3×6 fixture. -/
theorem C9_repr_witness :
    ECGRecord.repr rec6
      = "Record 100: [" ++ sq ++ "I" ++ sq ++ ", " ++ sq ++ "II" ++ sq
        ++ ", " ++ sq ++ "III" ++ sq ++ "]" :=
  C9_repr.2 rec6 rec6_built

/-- C10: indexing a record built by `from_np_array` with an in-range
integer succeeds and yields a record whose time holds exactly the single
timestamp at that index and whose j-th signal holds exactly the single
sample `signal_matrix[j][i]`; in the store model the source's buffers all
read unchanged. -/
theorem C10_integer_index (name : String) (tv : List ℚ)
    (rows : List (List ℚ)) (ln : List String) (r : ECGRecord) (i : Nat)
    (hok : ECGRecord.from_np_array name tv (.mat rows) ln = .ok r)
    (hi : i < tv.length) :
    (r.getitem (.idx i)).name = r.name ∧
    (r.getitem (.idx i)).time.values = [tv.getD i 0] ∧
    (∀ j, j < rows.length →
      ((r.getitem (.idx i)).signals[j]?).map (fun s => s.samples)
        = some [(rows.getD j []).getD i 0]) ∧
    (∀ (σ : Store) (rr : RecordRef) (p : Nat), p < σ.size →
      (RecordRef.getitem σ rr (.idx i)).1.read p = σ.read p) := by
  obtain ⟨hlen, _, htime, hsig, hrows⟩ := from_np_ok hok
  refine ⟨rfl, ?_, ?_, ?_⟩
  · simp only [ECGRecord.getitem, Time.getitem, htime, Time.ofValues]
    exact sliceList_idx hi
  · intro j hj
    have hj2 : j < ln.length := hlen ▸ hj
    simp only [ECGRecord.getitem, List.getElem?_map, hsig]
    rw [zip_getElem? hj2 hj]
    simp only [Option.map_some', Signal.getitem]
    have hrl : i < (rows.getD j []).length := by
      rw [hrows _ (by
        rw [List.getD_eq_getElem _ _ hj]
        exact List.getElem_mem hj)]
      exact hi
    rw [sliceList_idx hrl]
  · intro σ rr p hp
    exact getitem_preserves_read hp

/-- Witness for C10 at the 3×6 fixture, index 0. -/
theorem C10_integer_index_witness :
    (rec6.getitem (.idx 0)).time.values = [tv6.getD 0 0] :=
  (C10_integer_index "100" tv6 mat6 leads3 rec6 0 rec6_built (by decide)).2.1

end PyECG
